import Mathlib

/-!
Verification of the per-pixel gap-filling pipeline of `mltools/ml4xcube/gapfilling/gap_filling.py`
(class `Gapfiller`).  The embedding models float matrices as total functions from coordinates to an
explicit value type `Val` that distinguishes NaN from numeric values, so that NumPy's comparison
semantics (`nan == x` is false, `nan != x` is true, `np.isclose(x, np.nan)` is false) can be
reproduced faithfully.  Randomness (`random.randint` draws) is modelled as an explicit finite
stream of drawn coordinates; the results of external library fits (sklearn's SVR, grid-search
optimizers and fold splits, which are not part of this repository) are supplied as parameters,
while every branch, count, threshold, comparison and score transformation of the repository's own
code is embedded directly from the source.
-/

/-- A floating-point cell value: either NaN or a rational number
(rationals stand in for the finite floats appearing in the arrays). -/
inductive Val where
  | nan : Val
  | num : ℚ → Val
deriving DecidableEq, Repr

/-- `np.isnan` on a cell value. -/
def Val.isnan : Val → Bool
  | .nan => true
  | .num _ => false

/-- NumPy elementwise `==` on cell values: NaN compares unequal to everything, including NaN. -/
def npEqV : Val → Val → Bool
  | .num a, .num b => decide (a = b)
  | _, _ => false

/-- NumPy elementwise `!=` on cell values: NaN compares not-equal to everything. -/
def npNeV : Val → Val → Bool
  | .num a, .num b => decide (a ≠ b)
  | _, _ => true

/-- NumPy truthiness of a float (used by `ndarray.any()`): nonzero is truthy, and NaN is truthy. -/
def Val.truthy : Val → Bool
  | .nan => true
  | .num q => decide (q ≠ 0)

/-- `np.isclose(v, -100)` with the default tolerances `rtol=1e-5`, `atol=1e-8`:
true iff `|v - (-100)| ≤ atol + rtol * |(-100)|`; false on NaN.  The inequality is
carried on the numerator and denominator (clearing the positive denominators) so that
it is kernel-computable; `isCloseNeg100_characterization` below proves it equal to the
direct transliteration `|q + 100| ≤ 1e-8 + 1e-5 * 100`. -/
def isCloseNeg100 : Val → Bool
  | .nan => false
  | .num q => decide (100000000 * |q.num + 100 * (q.den : ℤ)| ≤ 100001 * (q.den : ℤ))

/-- `np.isclose(v, np.nan)`: always false (NaN is never close to anything
under the default `equal_nan=False`).  This is the comparison written at
`gap_filling.py:392` intending to detect NaN gaps. -/
def npIscloseNan : Val → Bool := fun _ => false

/-- The gap-marker mode: `gap_value = np.nan` for real gaps,
`gap_value = -100` for artificial (simulated) gaps. -/
inductive GapMode where
  | real : GapMode
  | simulated : GapMode
deriving DecidableEq, Repr

/-- Whether a cell value is the gap marker of the current mode
(`np.isnan(...)` in real mode, `== -100` in simulated mode). -/
def isGapMarked : GapMode → Val → Bool
  | .real, v => v.isnan
  | .simulated, v => npEqV v (.num (-100))

/-- A 2D data matrix (`temp_gap_array` and friends): dimensions plus a total valuation. -/
structure Grid where
  rows : ℕ
  cols : ℕ
  val : ℕ → ℕ → Val

/-- All coordinates of a grid in row-major scan order (the order `np.argwhere` reports). -/
def allCoords (g : Grid) : List (ℕ × ℕ) :=
  (List.range g.rows) ×ˢ (List.range g.cols)

/-- `np.argwhere` of a boolean condition on the grid's values, in row-major order. -/
def argwhereG (g : Grid) (p : Val → Bool) : List (ℕ × ℕ) :=
  (allCoords g).filter (fun c => p (g.val c.1 c.2))

/-- Number of cells of the grid (`ndarray.size`). -/
def gridSize (g : Grid) : ℕ := (allCoords g).length

/-- `np.isnan(a).sum()`: number of NaN cells. -/
def countNan (g : Grid) : ℕ := ((allCoords g).filter (fun c => (g.val c.1 c.2).isnan)).length

/-- `(a == -100).sum()`: number of cells exactly equal to -100 (NaN cells never match). -/
def countNeg100 (g : Grid) : ℕ :=
  ((allCoords g).filter (fun c => npEqV (g.val c.1 c.2) (.num (-100)))).length

/-- `self.temp_known_pixels` as computed by `process_gap_array` (gap_filling.py:192-197):
in real-gap mode `size - isnan.sum()`, in simulated mode
`size - (a == -100).sum() - isnan.sum()`. -/
def temp_known_pixels (mode : GapMode) (g : Grid) : ℕ :=
  match mode with
  | .real => gridSize g - countNan g
  | .simulated => gridSize g - countNeg100 g - countNan g

/-- The gap-index list computed by `process_gap_array` (gap_filling.py:199-204):
`np.argwhere(np.isnan(a))` in real mode, `np.argwhere(a == gap_value)` in simulated mode. -/
def process_gap_array (mode : GapMode) (g : Grid) : List (ℕ × ℕ) :=
  argwhereG g (isGapMarked mode)

/-- Result of a predictor-selection call: the string signal
"Not enough known pixels - proceed with interpolation", a coordinate list,
or non-exit of the rejection-sampling loop within the supplied random stream
(the real loop would keep drawing forever). -/
inductive SelResult where
  | insufficientData : SelResult
  | coordsList : List (ℕ × ℕ) → SelResult
  | hangs : SelResult
deriving DecidableEq, Repr

/-- The rejection-sampling loop of `get_random_points` (gap_filling.py:384-401), with the
random draws made explicit as a finite stream of `[random_i, random_j]` pairs.
`iter_value` is always 100 when the loop runs; `number_iter` only increments on acceptance,
so the `while number_iter <= iter_value` loop exits only after the 101st acceptance.
A draw is rejected when `np.isclose(value, -100) or np.isclose(value, np.nan)` holds
(the second disjunct is constantly false), or when the coordinate is already collected.
`none` means the loop had not exited when the stream ran out. -/
def rpLoop (g : Grid) : List (ℕ × ℕ) → List (ℕ × ℕ) → ℕ → Option (List (ℕ × ℕ))
  | [], coords, number_iter => if 100 < number_iter then some coords else none
  | d :: rest, coords, number_iter =>
    if 100 < number_iter then some coords
    else if isCloseNeg100 (g.val d.1 d.2) || npIscloseNan (g.val d.1 d.2) then
      rpLoop g rest coords number_iter
    else if d ∈ coords then rpLoop g rest coords number_iter
    else rpLoop g rest (coords ++ [d]) (number_iter + 1)

/-- The "use all known non-gap coordinates" branch of `get_random_points`
(gap_filling.py:376-380): `argwhere(~isnan(a))` in real mode, `argwhere(a != gap_value)`
in simulated mode. -/
def allKnownCoords (mode : GapMode) (g : Grid) : List (ℕ × ℕ) :=
  match mode with
  | .real => argwhereG g (fun v => !v.isnan)
  | .simulated => argwhereG g (fun v => npNeV v (.num (-100)))

/-- `get_random_points` (gap_filling.py:356-401): with at least 100 known pixels run the
rejection-sampling loop, with at least 50 return all known coordinates, otherwise return
the insufficient-data string.  `none` models the loop not exiting within the draw stream. -/
def get_random_points (mode : GapMode) (g : Grid) (draws : List (ℕ × ℕ)) :
    Option SelResult :=
  if 100 ≤ temp_known_pixels mode g then
    (rpLoop g draws [] 0).map SelResult.coordsList
  else if 50 ≤ temp_known_pixels mode g then
    some (.coordsList (allKnownCoords mode g))
  else
    some .insufficientData

/-- Squared Euclidean distance between two coordinates.  The source computes
`scipy.spatial.distance.cdist` (true Euclidean distance); since `x ↦ √x` is strictly
monotone on nonnegative reals, minima, ordering and ties of the distance array are
identical whether distances or squared distances are carried, so the embedding carries
exact squared distances in `ℤ`. -/
def sqDistZ (a b : ℕ × ℕ) : ℤ :=
  ((a.1 : ℤ) - b.1) * ((a.1 : ℤ) - b.1) + ((a.2 : ℤ) - b.2) * ((a.2 : ℤ) - b.2)

/-- Minimum of a list of distances, `⊤` for the empty list (`⊤` plays the role of the
`np.inf` written over already-extracted entries). -/
def listMin (l : List (WithTop ℤ)) : WithTop ℤ := l.foldr min ⊤

/-- `np.argmin`: index of the first occurrence of the minimum of the array. -/
def argminIdx : List (WithTop ℤ) → ℕ
  | [] => 0
  | a :: rest => if a ≤ listMin rest then 0 else argminIdx rest + 1

/-- The selection loop of `get_extra_matrix_points` (gap_filling.py:443-451): `k` times,
take the index of the minimum entry of the distance array, record it, and overwrite that
entry with infinity so it is never considered again. -/
def selectIdxs (dists : List (WithTop ℤ)) : ℕ → List ℕ
  | 0 => []
  | k + 1 =>
    let i := argminIdx dists
    i :: selectIdxs (dists.set i ⊤) k

/-- The coordinates selected by the loop: the `min 40 (length coords)` iteratively
extracted nearest candidates, in extraction order. -/
def lccNearest (gi : ℕ × ℕ) (coords : List (ℕ × ℕ)) : List (ℕ × ℕ) :=
  (selectIdxs (coords.map (fun c => ((sqDistZ gi c : ℤ) : WithTop ℤ)))
      (min 40 coords.length)).map (fun i => coords.getD i (0, 0))

/-- The masked auxiliary matrix of `get_extra_matrix_points` (gap_filling.py:422-425):
`np.where(isnan(temp), gap_value, extra)` in real mode (`gap_value` is NaN),
`np.where(temp == -100, -100, extra)` in simulated mode. -/
def maskedExtra (mode : GapMode) (g : Grid) (extra : ℕ → ℕ → Val) : ℕ → ℕ → Val :=
  fun i j =>
    match mode with
    | .real => if (g.val i j).isnan then .nan else extra i j
    | .simulated => if npEqV (g.val i j) (.num (-100)) then .num (-100) else extra i j

/-- `np.argwhere(new_extra_matrix == extra_code)` (gap_filling.py:428): the same-class
candidate coordinates, NumPy `==` semantics (never matches if either side is NaN). -/
def lccCands (mode : GapMode) (g : Grid) (extra : ℕ → ℕ → Val) (gi : ℕ × ℕ) :
    List (ℕ × ℕ) :=
  (allCoords g).filter
    (fun c => npEqV (maskedExtra mode g extra c.1 c.2) (extra gi.1 gi.2))

/-- `get_extra_matrix_points` (gap_filling.py:403-456): gather same-class candidates; with
fewer than 40 fall back to `get_random_points` (propagating its insufficiency signal);
then select the 40 minimum-distance candidates by iterated extraction and append the gap
pixel's own coordinate last. -/
def get_extra_matrix_points (mode : GapMode) (g : Grid) (extra : ℕ → ℕ → Val)
    (draws : List (ℕ × ℕ)) (gi : ℕ × ℕ) : SelResult :=
  let cands := lccCands mode g extra gi
  if cands.length < 40 then
    match get_random_points mode g draws with
    | none => .hangs
    | some .insufficientData => .insufficientData
    | some .hangs => .hangs
    | some (.coordsList l) => .coordsList (lccNearest gi l ++ [gi])
  else
    .coordsList (lccNearest gi cands ++ [gi])

/-- A pandas DataFrame as used by the pipeline: integer column labels (the `RangeIndex`
produced by `pd.DataFrame(ndarray)`) and a list of rows of cell values.
The two `set_axis(..., axis=1, copy=False)` calls at gap_filling.py:293 and :489 discard
their return value (no `inplace=True`, no reassignment), so the labels in fact always
remain these integers and are never replaced by strings. -/
structure DFrame where
  labels : List ℕ
  rows : List (List Val)
deriving DecidableEq, Repr

/-- `create_dataframe` (gap_filling.py:327-354): one column per coordinate holding the
historical values at that pixel, plus a final target row holding the current gap-array
values; column labels are the constructor's default `RangeIndex`. -/
def create_dataframe (training : List (ℕ → ℕ → Val)) (g : Grid)
    (coords : List (ℕ × ℕ)) : DFrame :=
  { labels := List.range coords.length,
    rows := training.map (fun t => coords.map (fun c => t c.1 c.2)) ++
      [coords.map (fun c => g.val c.1 c.2)] }

/-- The column rename at gap_filling.py:290-293: `dataframe.set_axis(col_names, axis=1,
copy=False)` returns a renamed copy that is immediately discarded, so the frame is
unchanged. -/
def renameColumnsNoOp (df : DFrame) : DFrame := df

/-- `dataframe.replace(-100, np.nan, inplace=True)` (gap_filling.py:295). -/
def replaceNeg100 (df : DFrame) : DFrame :=
  { df with rows := df.rows.map (List.map (fun v => if v = .num (-100) then .nan else v)) }

/-- `dataframe.dropna(how='all')` (gap_filling.py:297): keep rows with at least one
non-NaN value. -/
def dropAllNanRows (df : DFrame) : DFrame :=
  { df with rows := df.rows.filter (fun r => r.any (fun v => !v.isnan)) }

/-- `dataframe.drop([lab], axis=1, inplace=True)`: remove the column whose *label* is
`lab` (labels, not positions; the position is found in the label list). -/
def dropColByLabel (df : DFrame) (lab : ℕ) : DFrame :=
  let pos := df.labels.indexOf lab
  { labels := df.labels.eraseIdx pos,
    rows := df.rows.map (fun r => r.eraseIdx pos) }

/-- `preprocess_dataframe` (gap_filling.py:458-491): inspect the last row minus its final
entry, collect the positions holding NaN, drop the columns with those labels, and then
call `set_axis` to reindex — whose returned frame is again discarded, so the surviving
labels keep their old values. -/
def preprocess_dataframe (df : DFrame) : DFrame :=
  let last_row := (df.rows.getLastD []).dropLast
  let indexes_na := (List.range last_row.length).filter
    (fun i => (last_row.getD i .nan).isnan)
  if 0 < indexes_na.length then
    indexes_na.foldl (fun acc i => dropColByLabel acc i) df
  else df

/-- `get_train_test_sets` (gap_filling.py:493-520): all rows but the last form the training
pool, rows containing any NaN are dropped (`train.dropna()`), the last column is the
training target, and the last row minus its last entry is the test input.  Returned as
(X_train, y_train, X_test). -/
def get_train_test_sets (df : DFrame) :
    List (List Val) × List (List Val) × List (List Val) :=
  let train := df.rows.dropLast
  let test := [df.rows.getLastD []]
  let train2 := train.filter (fun r => !r.any Val.isnan)
  (train2.map List.dropLast, train2.map (fun r => [r.getLastD .nan]), test.map List.dropLast)

/-- `X_train.any()` (gap_filling.py:305): NumPy truthiness — true iff some entry of the
training array is nonzero (or NaN).  In particular it is false both for an empty array
and for a non-empty all-zero array. -/
def xTrainAny (x : List (List Val)) : Bool :=
  x.any (fun r => r.any Val.truthy)

/-- A per-pixel score slot: the string `"not available"`, a float (possibly NaN), or the
raw array returned by `cross_val_score`. -/
inductive Score where
  | notAvailable : Score
  | v : Val → Score
  | arr : List ℚ → Score
deriving DecidableEq, Repr

/-- One fold's `neg_mean_absolute_error` score: the negated mean of absolute errors over
the fold's (truth, prediction) pairs. -/
def negMAE (fold : List (ℚ × ℚ)) : ℚ :=
  -((fold.map (fun p => |p.1 - p.2|)).sum / fold.length)

/-- The outcomes of the external sklearn calls made for one pixel, supplied as data:
`cvFolds` is the per-fold (truth, prediction) pairs realised by `cross_val_score`
(`none` when it raises), `fitPred` the value of `estimator.predict(X_test).item()`,
`gridBest` the optimizer's fitted `best_score_` (a cross-validated mean
`neg_mean_absolute_error`, hence nonpositive; `none` when `optimizer.fit` raises) and
`gridPred` the best estimator's prediction. -/
structure FitEnv where
  draws : List (ℕ × ℕ)
  cvFolds : Option (List (List (ℚ × ℚ)))
  fitPred : ℚ
  gridBest : Option ℚ
  gridPred : ℚ

/-- Hyperparameter search mode. -/
inductive HyperMode where
  | custom : HyperMode
  | randomGridSearch : HyperMode
  | fullGridSearch : HyperMode
deriving DecidableEq, Repr

/-- Predictor strategy. -/
inductive Predictor where
  | allPoints : Predictor
  | randomPoints : Predictor
  | lcc : Predictor
deriving DecidableEq, Repr

/-- `train_model` (gap_filling.py:569-641), learning function "SVR".  The joint
standardization at :589-594 only rescales the inputs handed to the external estimator and
is absorbed into the supplied fit outcomes.  In 'Custom' mode the value bound by
`validation_score = cross_val_score(...)` is the raw per-fold score array and is returned
unchanged; `return None, None` on a cross-validation exception.  In the grid-search
modes the score returned is `abs(optimizer.best_score_)`; `return None, None` when the
optimizer's fit raises. -/
def train_model (hyper : HyperMode) (env : FitEnv) : Option (ℚ × Score) :=
  match hyper with
  | .custom =>
    match env.cvFolds with
    | none => none
    | some folds => some (env.fitPred, .arr (folds.map negMAE))
  | .randomGridSearch | .fullGridSearch =>
    match env.gridBest with
    | none => none
    | some best => some (env.gridPred, .v (.num |best|))

/-- Outcome of `interpolation`: the no-result diagnostic path (prints
"No calculation for matrix - matrix contains just gaps" and returns `None`), a computed
value, or an exception from `scipy.interpolate.griddata` (which raises when the
known-point scatter handed to it is empty). -/
inductive InterpOutcome where
  | noResult : InterpOutcome
  | value : ℚ → InterpOutcome
  | raised : InterpOutcome
deriving DecidableEq, Repr

/-- `copy_matrix[copy_matrix == self.gap_value] = np.nan` (gap_filling.py:666): in real
mode the comparison `== nan` never matches so nothing changes (gaps are already NaN);
in simulated mode -100 cells become NaN. -/
def maskGapAsNan (mode : GapMode) (v : Val) : Val :=
  match mode with
  | .real => v
  | .simulated => if npEqV v (.num (-100)) then .nan else v

/-- The known-pixel scatter used by `interpolation`: coordinates and values of the
non-NaN cells of the masked matrix, in row-major order. -/
def knownCells (mode : GapMode) (g : Grid) : List ((ℕ × ℕ) × ℚ) :=
  (allCoords g).filterMap (fun c =>
    match maskGapAsNan mode (g.val c.1 c.2) with
    | .nan => none
    | .num q => some (c, q))

/-- Nearest-neighbour lookup over the known scatter (`griddata(..., method='nearest')`),
ties resolved towards the earlier point in scan order. -/
def nearestKnown (gi : ℕ × ℕ) : List ((ℕ × ℕ) × ℚ) → Option ((ℕ × ℕ) × ℚ)
  | [] => none
  | p :: rest =>
    match nearestKnown gi rest with
    | none => some p
    | some q => if sqDistZ gi p.1 ≤ sqDistZ gi q.1 then some p else some q

/-- `interpolation` (gap_filling.py:643-675).  The guard at :659 is, verbatim,
`all_pixels - (a == -100).sum() + np.isnan(a).sum() <= 10` — the NaN count is *added*;
when it holds nothing is computed (diagnostic only), otherwise nearest-neighbour
interpolation runs over the masked known scatter. -/
def interpolation (mode : GapMode) (g : Grid) (gi : ℕ × ℕ) : InterpOutcome :=
  if gridSize g - countNeg100 g + countNan g ≤ 10 then
    .noResult
  else
    match nearestKnown gi (knownCells mode g) with
    | some p => .value p.2
    | none => .raised

/-- The prediction carried out of an interpolation outcome (`None` on the diagnostic
path). -/
def interpPred : InterpOutcome → Option ℚ
  | .noResult => none
  | .value q => some q
  | .raised => none

/-- A Gap Result: the tuple `(gap_index, prediction, actual_score, validation_score)`
returned by `pixel_model`. -/
structure GapResult where
  coord : ℕ × ℕ
  prediction : Option ℚ
  actualScore : Score
  validationScore : Score
deriving DecidableEq, Repr

/-- What one `pixel_model` call does: return a Gap Result, raise an exception (which
`fill_the_gaps` re-raises while draining the pool, aborting the batch), or never return
(the sampling loop did not exit within the supplied draw stream). -/
inductive PixelOutcome where
  | result : GapResult → PixelOutcome
  | raised : PixelOutcome
  | hangs : PixelOutcome
deriving DecidableEq, Repr

/-- `abs(actual_value - prediction)` on a possibly-NaN actual value. -/
def valAbsSub (a : Val) (q : ℚ) : Val :=
  match a with
  | .nan => .nan
  | .num x => .num |x - q|

/-- The insufficient-data branch of `pixel_model` (gap_filling.py:273-282): interpolate,
mark the validation score unavailable, and then — because the test at :277 reads
`if self.gap_value != -100:` — in real-gap mode evaluate
`self.actual_matrix[gap_index[0], gap_index[1]]`, which tuple-indexes the xarray
*Dataset* (not the variable's array) and raises `KeyError`; only simulated mode reaches
the `return`. -/
def insufficientBranch (mode : GapMode) (g : Grid) (gi : ℕ × ℕ) : PixelOutcome :=
  match interpolation mode g gi with
  | .raised => .raised
  | io =>
    match mode with
    | .real => .raised
    | .simulated => .result ⟨gi, interpPred io, .notAvailable, .notAvailable⟩

/-- The tail of `pixel_model` (gap_filling.py:312-325): a `None` prediction is retried
through `interpolation` (same deterministic call, same result) and may remain `None`;
then in simulated mode `actual_score = abs(actual_value - prediction)` is computed from
the true matrix — raising `TypeError` if the prediction is still `None` — while real
mode reports "not available". -/
def finishResult (mode : GapMode) (actual : ℕ → ℕ → Val) (gi : ℕ × ℕ)
    (pred : Option ℚ) (vs : Score) : PixelOutcome :=
  match mode with
  | .simulated =>
    match pred with
    | none => .raised
    | some p => .result ⟨gi, some p, .v (valAbsSub (actual gi.1 gi.2) p), vs⟩
  | .real => .result ⟨gi, pred, .notAvailable, vs⟩

/-- The "AllPoints" selector (gap_filling.py:262-267): `argwhere(~isnan(a))` in real mode,
`argwhere(a != gap_value)` in simulated mode. -/
def allPointsCoords (mode : GapMode) (g : Grid) : List (ℕ × ℕ) :=
  match mode with
  | .real => argwhereG g (fun v => !v.isnan)
  | .simulated => argwhereG g (fun v => npNeV v (.num (-100)))

/-- The predictor-coordinate selection at the head of `pixel_model`
(gap_filling.py:261-271), per strategy. -/
def selectorFor (pred : Predictor) (env : FitEnv) (mode : GapMode) (g : Grid)
    (extra : ℕ → ℕ → Val) (gi : ℕ × ℕ) : SelResult :=
  match pred with
  | .allPoints => .coordsList (allPointsCoords mode g)
  | .randomPoints =>
    match get_random_points mode g env.draws with
    | none => .hangs
    | some r => r
  | .lcc => get_extra_matrix_points mode g extra env.draws gi

/-- For non-LCC strategies `pixel_model` appends the gap pixel's own coordinate to the
selected set (gap_filling.py:284-286). -/
def appendSelf (pred : Predictor) (cs : List (ℕ × ℕ)) (gi : ℕ × ℕ) : List (ℕ × ℕ) :=
  match pred with
  | .lcc => cs
  | _ => cs ++ [gi]

/-- The feature-table build-and-clean chain of `pixel_model` (gap_filling.py:289-299):
construct, (no-op) rename, replace -100 by NaN, drop all-NaN rows, preprocess. -/
def featureFrame (training : List (ℕ → ℕ → Val)) (g : Grid)
    (cs2 : List (ℕ × ℕ)) : DFrame :=
  preprocess_dataframe (dropAllNanRows (replaceNeg100
    (renameColumnsNoOp (create_dataframe training g cs2))))

/-- The body of `pixel_model` once a coordinate list is in hand (gap_filling.py:284-325):
build and split the feature table, branch on `not X_train.any()`, train or interpolate,
and assemble the Gap Result. -/
def pixelModelOnCoords (pred : Predictor) (hyper : HyperMode) (env : FitEnv)
    (mode : GapMode) (g : Grid) (training : List (ℕ → ℕ → Val))
    (actual : ℕ → ℕ → Val) (gi : ℕ × ℕ) (cs : List (ℕ × ℕ)) : PixelOutcome :=
  if !xTrainAny (get_train_test_sets (featureFrame training g (appendSelf pred cs gi))).1
  then
    match interpolation mode g gi with
    | .raised => .raised
    | io => finishResult mode actual gi (interpPred io) .notAvailable
  else
    match train_model hyper env with
    | none =>
      match interpolation mode g gi with
      | .raised => .raised
      | io => finishResult mode actual gi (interpPred io) .notAvailable
    | some (p, vs) => finishResult mode actual gi (some p) vs

/-- `pixel_model` (gap_filling.py:244-325): select predictor coordinates per strategy,
handle the insufficient-data signal, and otherwise run the build/split/train/assemble
body on the selected coordinates. -/
def pixel_model (pred : Predictor) (hyper : HyperMode) (env : FitEnv) (mode : GapMode)
    (g : Grid) (training : List (ℕ → ℕ → Val)) (extra : ℕ → ℕ → Val)
    (actual : ℕ → ℕ → Val) (gi : ℕ × ℕ) : PixelOutcome :=
  match selectorFor pred env mode g extra gi with
  | .hangs => .hangs
  | .insufficientData => insufficientBranch mode g gi
  | .coordsList cs => pixelModelOnCoords pred hyper env mode g training actual gi cs

/-- The result-draining loop of `fill_the_gaps` (gap_filling.py:227-240): one result per
gap index, in order; an exception in any worker propagates out of `pool.imap` and aborts
the whole collection (`none`). -/
def collectResults (f : ℕ × ℕ → PixelOutcome) : List (ℕ × ℕ) → Option (List GapResult)
  | [] => some []
  | gi :: rest =>
    match f gi with
    | .result r => (collectResults f rest).map (fun rs => r :: rs)
    | _ => none

/-- `fill_the_gaps` applied to the indices of `process_gap_array`
(gap_filling.py:105-108, 206-242). -/
def fill_the_gaps (pred : Predictor) (hyper : HyperMode) (env : FitEnv) (mode : GapMode)
    (g : Grid) (training : List (ℕ → ℕ → Val)) (extra : ℕ → ℕ → Val)
    (actual : ℕ → ℕ → Val) : Option (List GapResult) :=
  collectResults (pixel_model pred hyper env mode g training extra actual)
    (process_gap_array mode g)

/-- A 2x2 real-gap matrix with a single known pixel (three NaN gaps). -/
def g2real : Grid := ⟨2, 2, fun i j => if (i, j) = (0, 0) then .num 1 else .nan⟩

/-- A 2x2 simulated-gap matrix with a single known pixel (three -100 gaps). -/
def g2sim : Grid := ⟨2, 2, fun i j => if (i, j) = (0, 0) then .num 1 else .num (-100)⟩

/-- A fit environment for runs that never reach the external estimator. -/
def envTriv : FitEnv := ⟨[], none, 0, none, 0⟩

/-- An unused auxiliary matrix. -/
def dummyM : ℕ → ℕ → Val := fun _ _ => .nan

/-- Fit environment in which cross-validation succeeds with three folds of absolute
errors 1, 2 and 3, the fitted SVR predicts 7, and grid search would report a best score
of -2 with prediction 5. -/
def env3 : FitEnv := ⟨[], some [[(0, 1)], [(0, 2)], [(0, 3)]], 7, some (-2), 5⟩

/-- Fit environment in which cross-validation raises. -/
def env3fail : FitEnv := ⟨[], none, 7, none, 5⟩

/-- A 4x4 matrix consisting entirely of NaN gaps (real-gap mode). -/
def gAllNan : Grid := ⟨4, 4, fun _ _ => .nan⟩

/-- The stream of 101 distinct in-range draws `(k / 11, k % 11)` for `k < 101` on a
10x11 matrix. -/
def draws101 : List (ℕ × ℕ) := (List.range 101).map (fun k => (k / 11, k % 11))

/-- A 10x11 real-gap matrix with a single NaN gap at (0,0) and 109 known pixels. -/
def g5 : Grid := ⟨10, 11, fun i j => if (i, j) = (0, 0) then .nan else .num 1⟩

/-- A 10x11 matrix with no gaps at all: 110 known pixels (simulated-gap mode). -/
def g6 : Grid := ⟨10, 11, fun _ _ => .num 1⟩

/-- A 1x3 simulated-gap matrix: gap at (0,0), cloud NaN at (0,1), known 2 at (0,2). -/
def g8 : Grid :=
  ⟨1, 3, fun _ j => if j = 0 then .num (-100) else if j = 1 then .nan else .num 2⟩

/-- One historical time-step for `g8`: known only at column 1 (elsewhere cloud NaN). -/
def t8 : ℕ → ℕ → Val := fun _ j => if j = 1 then .num 7 else .nan

/-- The feature table of `g8`'s gap pixel after `pixel_model`'s build-and-clean steps
(gap_filling.py:289-299) and `preprocess_dataframe`: columns are the AllPoints selection
plus the gap pixel itself, exactly as `pixel_model` assembles them. -/
def c8df : DFrame :=
  preprocess_dataframe (dropAllNanRows (replaceNeg100
    (renameColumnsNoOp (create_dataframe [t8] g8
      (allPointsCoords .simulated g8 ++ [(0, 0)])))))

/-- A 4x4 simulated-gap matrix: gap at (0,0), known values elsewhere. -/
def g9 : Grid :=
  ⟨4, 4, fun i j =>
    if (i, j) = (0, 0) then .num (-100)
    else if (i, j) = (0, 1) then .num 5
    else if (i, j) = (0, 2) then .num 6
    else .num 1⟩

/-- Historical time-steps for `g9`: identically zero (a valid, fully known matrix). -/
def t9 : ℕ → ℕ → Val := fun _ _ => .num 0

/-- Fit environment for `g9` in which both cross-validation and the grid search would
succeed (so any fallback to interpolation is due to the branch, not a fit failure). -/
def env9 : FitEnv := ⟨[], some [[(1, 1)]], 99, some 0, 0⟩

/-- True matrix for `g9` (NaN at the probed pixel keeps the score arithmetic inert). -/
def actual9 : ℕ → ℕ → Val := fun _ _ => .nan

/-- The feature table built by `pixel_model` for `g9`'s gap pixel. -/
def c9df : DFrame :=
  preprocess_dataframe (dropAllNanRows (replaceNeg100
    (renameColumnsNoOp (create_dataframe [t9, t9] g9
      (allPointsCoords .simulated g9 ++ [(0, 0)])))))

/-- A 1x2 real-gap matrix: NaN gap at (0,0), known 1 at (0,1). -/
def gW : Grid := ⟨1, 2, fun _ j => if j = 0 then .nan else .num 1⟩

/-- One fully known historical time-step for `gW`. -/
def tW : ℕ → ℕ → Val := fun _ _ => .num 2

/-- A 10x11 simulated-gap matrix whose last column is all gaps: exactly 100 known
pixels (the boundary of the sampling branch) and no NaN cells. -/
def g10 : Grid := ⟨10, 11, fun _ j => if j = 10 then .num (-100) else .num 1⟩

/-- Number of non-infinite entries of a distance array (entries not yet overwritten by
the extraction loop). -/
def finiteCount (l : List (WithTop ℤ)) : ℕ := l.countP (fun x => decide (x ≠ ⊤))

/-- A fully known 7x7 matrix (no gaps). -/
def g7 : Grid := ⟨7, 7, fun _ _ => .num 1⟩

/-- An auxiliary classification matrix assigning every cell the same class code. -/
def extra7 : ℕ → ℕ → Val := fun _ _ => .num 5

/-- Membership in the row-major coordinate enumeration is exactly in-range-ness. -/
theorem mem_allCoords (g : Grid) (c : ℕ × ℕ) :
    c ∈ allCoords g ↔ c.1 < g.rows ∧ c.2 < g.cols := by
  cases c with
  | mk i j => simp [allCoords, List.pair_mem_product]

/-- The row-major coordinate enumeration has no duplicates. -/
theorem nodup_allCoords (g : Grid) : (allCoords g).Nodup :=
  (List.nodup_range _).product (List.nodup_range _)

/-- The gap-index list returned by `process_gap_array` has no duplicate coordinates. -/
theorem nodup_process_gap_array (mode : GapMode) (g : Grid) :
    (process_gap_array mode g).Nodup :=
  (nodup_allCoords g).filter _

/-- A coordinate is in the gap-index list iff it is in range and its value carries
the gap marker of the current mode. -/
theorem mem_process_gap_array (mode : GapMode) (g : Grid) (c : ℕ × ℕ) :
    c ∈ process_gap_array mode g ↔
      c.1 < g.rows ∧ c.2 < g.cols ∧ isGapMarked mode (g.val c.1 c.2) = true := by
  simp only [process_gap_array, argwhereG, List.mem_filter, mem_allCoords]
  tauto

/-- C2: "For every gap pixel whose predictor selection signals insufficient data …,
pixel_model recovers locally by calling the interpolator and returns a Gap Result
without raising, in both real-gap mode (gap marker NaN) and simulated-gap mode (-100);
an insufficient-data signal is never surfaced as a hard failure of the batch."
REFUTED for real-gap mode: on a 2x2 matrix with one known pixel the RandomPoints
selector signals insufficient data, and the branch at gap_filling.py:277-279 then
evaluates `self.actual_matrix[gap_index[0], gap_index[1]]` — tuple-indexing the xarray
Dataset, which raises KeyError — so the pixel raises instead of returning a Gap Result
(and `pool.imap` re-raises it, aborting the batch).  Simulated mode does recover and
return a result, as the claim says. -/
theorem c2_insufficient_real_mode_raises :
    pixel_model .randomPoints .custom envTriv .real g2real [] dummyM dummyM (0, 1) =
      .raised ∧
    pixel_model .randomPoints .custom envTriv .simulated g2sim [] dummyM dummyM (0, 1) =
      .result ⟨(0, 1), none, .notAvailable, .notAvailable⟩ ∧
    get_random_points .real g2real [] = some .insufficientData ∧
    get_random_points .simulated g2sim [] = some .insufficientData := by
  refine ⟨by decide, by decide, by decide, by decide⟩

/-- C3: "In hyperparameter mode 'Custom', when cross-validation succeeds, train_model
returns a validation score that is the cross-validated mean absolute error sign-adjusted
to positive, i.e. a single non-negative number (as the grid-search modes do via
abs(best_score_)) …".  REFUTED: `validation_score = cross_val_score(...)` at
gap_filling.py:605 is returned unchanged at :641 — the raw per-fold array of
`neg_mean_absolute_error` values, which are nonpositive; with fold errors 1,2,3 the
returned score is the array [-1,-2,-3], not a single non-negative number, while the
grid-search mode on the same environment returns the single value |-2| = 2.  The
failure half of the claim does hold: a cross-validation exception yields (None, None). -/
theorem c3_custom_score_is_raw_negative_array :
    train_model .custom env3 = some (7, .arr [-1, -2, -3]) ∧
    ((-1 : ℚ) < 0 ∧ (-2 : ℚ) < 0 ∧ (-3 : ℚ) < 0) ∧
    train_model .randomGridSearch env3 = some (5, .v (.num 2)) ∧
    train_model .custom env3fail = none := by
  refine ⟨?_, by norm_num, ?_, by decide⟩
  · simp only [train_model, env3, List.map, negMAE]
    norm_num
  · simp only [train_model, env3]
    norm_num

/-- C4: "interpolation produces NoResult … exactly when the matrix has fewer than 10
usable known values after masking the gap marker as missing, and otherwise returns the
nearest-known-value estimate."  REFUTED: the guard at gap_filling.py:659 is
`all_pixels - (a == -100).sum() + np.isnan(a).sum() <= 10` — the NaN count is *added*
instead of subtracted — so on an all-NaN 4x4 matrix (0 usable known values) the guard is
16 - 0 + 16 = 32 > 10, the code proceeds to interpolate over an empty known scatter, and
`scipy.interpolate.griddata` raises instead of producing the NoResult diagnostic. -/
theorem c4_interpolation_guard_adds_nan_count :
    interpolation .real gAllNan (0, 0) = .raised ∧
    temp_known_pixels .real gAllNan = 0 ∧ (0 : ℕ) < 10 ∧
    gridSize gAllNan - countNeg100 gAllNan + countNan gAllNan = 32 := by
  refine ⟨by decide, by decide, by decide, by decide⟩

set_option maxRecDepth 100000 in
/-- C5: "every coordinate list returned by get_random_points contains no duplicate
coordinates and contains no coordinate whose Target Matrix value is the gap marker"
(both modes).  REFUTED for real-gap mode: the gap check at gap_filling.py:392 is
`np.isclose(value, -100) or np.isclose(value, np.nan)`, and `np.isclose(x, np.nan)` is
always false, so NaN gap cells are never rejected: on a 10x11 matrix with 109 known
pixels and a NaN gap at (0,0), a draw stream hitting (0,0) makes the loop return a list
containing the gap-marked coordinate (0,0). -/
theorem c5_random_points_returns_nan_gap_coordinate :
    get_random_points .real g5 draws101 = some (.coordsList draws101) ∧
    (0, 0) ∈ draws101 ∧
    isGapMarked .real (g5.val 0 0) = true ∧
    100 ≤ temp_known_pixels .real g5 := by
  refine ⟨by decide, by decide, by decide, by decide⟩

set_option maxRecDepth 100000 in
/-- C6 (third clause): "when [the known count] is at least 100, the sampling loop
terminates having collected exactly 100 valid, unique, non-gap coordinates (the fixed
budget)."  REFUTED: `number_iter` starts at 0, is incremented only on acceptance, and
the loop condition is `while number_iter <= iter_value` with `iter_value = 100`
(gap_filling.py:373,386,399), so the loop exits only after the 101st acceptance: on a
fully known 10x11 matrix a stream of 101 distinct draws is accepted whole and the
returned list has 101 coordinates, not 100. -/
theorem c6_random_points_collects_101_coordinates :
    get_random_points .simulated g6 draws101 = some (.coordsList draws101) ∧
    draws101.length = 101 ∧
    temp_known_pixels .simulated g6 = 110 := by
  refine ⟨by decide, by decide, by decide⟩

/-- C8: "After building and preprocessing the feature table, no row whose values are all
missing remains, no column whose target-row (last-row) entry is missing remains, and
after columns are dropped the remaining columns are re-indexed contiguously (labels
0..n-1 as strings)."  REFUTED on a 1x3 matrix with one gap, one cloud pixel and one
known pixel: both `set_axis(..., axis=1, copy=False)` calls (gap_filling.py:293, :489)
discard their return value, so after dropping column 0 the surviving labels are [1, 2],
not a contiguous re-indexing; the historical row that was known only at the dropped
column becomes all-NaN yet remains; and the gap pixel's own last column keeps its NaN
target-row entry (the check at :472 reads `iloc[-1:, :-1]`, skipping the last column). -/
theorem c8_preprocessed_frame_keeps_old_labels :
    c8df.labels = [1, 2] ∧
    c8df.labels ≠ List.range c8df.labels.length ∧
    c8df.rows.getD 0 [] = [.nan, .nan] ∧
    ((c8df.rows.getD 0 []).all Val.isnan = true ∧ (c8df.rows.getD 0 []).length = 2) ∧
    ((c8df.rows.getLastD []).getLastD (.num 0)).isnan = true := by
  refine ⟨by decide, by decide, by decide, by decide, by decide⟩

/-- C9: "pixel_model falls back to interpolation if and only if the training set has
zero rows; in particular, for every non-empty training set the model trainer is
invoked."  COUNTEREXAMPLE: on `g9` with two all-zero historical time-steps the training
set has 2 rows, yet `not X_train.any()` (gap_filling.py:305) is true — `ndarray.any()`
tests value truthiness, not emptiness — so `pixel_model` interpolates (prediction 5 from
the nearest known pixel, validation score "not available") even though `train_model`
would have succeeded (returning prediction 99 with a present validation score). -/
theorem c9_truthiness_counterexample :
    (get_train_test_sets c9df).1.length = 2 ∧
    (get_train_test_sets c9df).1 ≠ [] ∧
    xTrainAny (get_train_test_sets c9df).1 = false ∧
    pixel_model .allPoints .custom env9 .simulated g9 [t9, t9] dummyM actual9 (0, 0) =
      .result ⟨(0, 0), some 5, .v .nan, .notAvailable⟩ ∧
    train_model .custom env9 = some (99, .arr [0]) := by
  refine ⟨by decide, by decide, by decide, by decide, ?_⟩
  simp only [train_model, env9, List.map, negMAE]
  norm_num

/-- C9 (amended): `pixel_model` falls back to interpolation iff the training array
contains no truthy entry (NumPy truthiness of `not X_train.any()`): a zero-row training
set always falls back — vacuously no truthy entry — but a non-empty all-zero training
set falls back too, so the trainer is not invoked on every non-empty training set. -/
theorem c9_fallback_iff_no_truthy_entry (df : DFrame) :
    xTrainAny (get_train_test_sets df).1 = false ↔
      ∀ r ∈ (get_train_test_sets df).1, ∀ v ∈ r, v.truthy = false := by
  simp [xTrainAny]

/-- Both `return` statements of the insufficient-data branch carry the incoming
gap index as the result's coordinate. -/
theorem insufficientBranch_coord (mode : GapMode) (g : Grid) (gi : ℕ × ℕ)
    (r : GapResult) (h : insufficientBranch mode g gi = .result r) : r.coord = gi := by
  unfold insufficientBranch at h
  split at h
  · exact absurd h (by simp)
  · split at h
    · exact absurd h (by simp)
    · cases h; rfl

/-- The final `return` of `pixel_model` carries the incoming gap index as the result's
coordinate. -/
theorem finishResult_coord (mode : GapMode) (actual : ℕ → ℕ → Val) (gi : ℕ × ℕ)
    (pred : Option ℚ) (vs : Score) (r : GapResult)
    (h : finishResult mode actual gi pred vs = .result r) : r.coord = gi := by
  unfold finishResult at h
  split at h
  · split at h
    · exact absurd h (by simp)
    · cases h; rfl
  · cases h; rfl

/-- Every Gap Result produced past the selection stage is keyed by the incoming gap
index. -/
theorem pixelModelOnCoords_coord (pred : Predictor) (hyper : HyperMode) (env : FitEnv)
    (mode : GapMode) (g : Grid) (training : List (ℕ → ℕ → Val))
    (actual : ℕ → ℕ → Val) (gi : ℕ × ℕ) (cs : List (ℕ × ℕ)) (r : GapResult)
    (h : pixelModelOnCoords pred hyper env mode g training actual gi cs = .result r) :
    r.coord = gi := by
  unfold pixelModelOnCoords at h
  split at h
  · split at h
    · exact absurd h (by simp)
    · exact finishResult_coord _ _ _ _ _ _ h
  · split at h
    · split at h
      · exact absurd h (by simp)
      · exact finishResult_coord _ _ _ _ _ _ h
    · exact finishResult_coord _ _ _ _ _ _ h

/-- Every Gap Result produced by `pixel_model` is keyed by the gap index it was
called with. -/
theorem pixel_model_coord (pred : Predictor) (hyper : HyperMode) (env : FitEnv)
    (mode : GapMode) (g : Grid) (training : List (ℕ → ℕ → Val)) (extra : ℕ → ℕ → Val)
    (actual : ℕ → ℕ → Val) (gi : ℕ × ℕ) (r : GapResult)
    (h : pixel_model pred hyper env mode g training extra actual gi = .result r) :
    r.coord = gi := by
  unfold pixel_model at h
  split at h
  · exact absurd h (by simp)
  · exact insufficientBranch_coord mode g gi r h
  · exact pixelModelOnCoords_coord _ _ _ _ _ _ _ _ _ _ h

/-- If the result-draining loop completes, it yields exactly one result per input index,
in order, each keyed by its own index. -/
theorem collectResults_map_coord (f : ℕ × ℕ → PixelOutcome)
    (hf : ∀ gi r, f gi = .result r → r.coord = gi) :
    ∀ (l : List (ℕ × ℕ)) (rs : List GapResult),
      collectResults f l = some rs → rs.map GapResult.coord = l := by
  intro l
  induction l with
  | nil =>
    intro rs h
    simp only [collectResults, Option.some.injEq] at h
    subst h
    rfl
  | cons gi rest ih =>
    intro rs h
    simp only [collectResults] at h
    cases hfg : f gi with
    | result r =>
      rw [hfg] at h
      cases hrec : collectResults f rest with
      | none => rw [hrec] at h; exact absurd h (by simp)
      | some rs2 =>
        rw [hrec] at h
        simp only [Option.map, Option.some.injEq] at h
        subst h
        simp only [List.map_cons]
        exact congrArg₂ List.cons (hf gi r hfg) (ih rs2 hrec)
    | raised => rw [hfg] at h; exact absurd h (by simp)
    | hangs => rw [hfg] at h; exact absurd h (by simp)

/-- C1: "the set of Gap Result coordinates produced by the orchestrator (fill_the_gaps
over the indices returned by process_gap_array) contains no duplicate coordinate and
equals exactly the set of gap-marked pixels identified in the Target Matrix at pipeline
start: each gap pixel yields exactly one result, and no non-gap pixel yields a result."
CONFIRMED: whenever the orchestrator's collection completes, the coordinates of the
produced Gap Results are exactly the `process_gap_array` index list, in order; and that
list is duplicate-free and holds precisely the in-range gap-marked coordinates. -/
theorem c1_results_cover_gap_pixels_exactly (pred : Predictor) (hyper : HyperMode)
    (env : FitEnv) (mode : GapMode) (g : Grid) (training : List (ℕ → ℕ → Val))
    (extra : ℕ → ℕ → Val) (actual : ℕ → ℕ → Val) (rs : List GapResult)
    (h : fill_the_gaps pred hyper env mode g training extra actual = some rs) :
    rs.map GapResult.coord = process_gap_array mode g ∧
    (rs.map GapResult.coord).Nodup ∧
    (∀ c, c ∈ rs.map GapResult.coord ↔
      c.1 < g.rows ∧ c.2 < g.cols ∧ isGapMarked mode (g.val c.1 c.2) = true) := by
  have hmap : rs.map GapResult.coord = process_gap_array mode g :=
    collectResults_map_coord _
      (fun gi r hr => pixel_model_coord pred hyper env mode g training extra actual gi r hr)
      _ rs h
  refine ⟨hmap, ?_, ?_⟩
  · rw [hmap]; exact nodup_process_gap_array mode g
  · intro c; rw [hmap]; exact mem_process_gap_array mode g c

/-- Witness for C1: a complete concrete run (real-gap mode, AllPoints, failing
cross-validation so the pixel resolves through interpolation's diagnostic path)
producing exactly one Gap Result, keyed by the unique gap coordinate. -/
theorem c1_results_cover_gap_pixels_exactly_witness :
    fill_the_gaps .allPoints .custom envTriv .real gW [tW] dummyM dummyM =
      some [⟨(0, 0), none, .notAvailable, .notAvailable⟩] ∧
    ([(⟨(0, 0), none, .notAvailable, .notAvailable⟩ : GapResult)].map GapResult.coord =
        process_gap_array .real gW ∧
      ([(⟨(0, 0), none, .notAvailable, .notAvailable⟩ : GapResult)].map
          GapResult.coord).Nodup ∧
      (∀ c, c ∈ [(⟨(0, 0), none, .notAvailable, .notAvailable⟩ : GapResult)].map
            GapResult.coord ↔
        c.1 < gW.rows ∧ c.2 < gW.cols ∧ isGapMarked .real (gW.val c.1 c.2) = true)) :=
  ⟨by decide,
    c1_results_cover_gap_pixels_exactly .allPoints .custom envTriv .real gW [tW]
      dummyM dummyM [⟨(0, 0), none, .notAvailable, .notAvailable⟩] (by decide)⟩

/-- A duplicate-free list of coordinates inside a 10x10 box has at most 100 entries. -/
theorem length_le_of_nodup_bounded (coords : List (ℕ × ℕ)) (hnd : coords.Nodup)
    (hmem : ∀ c ∈ coords, c.1 < 10 ∧ c.2 < 10) : coords.length ≤ 100 := by
  have h1 : coords.toFinset ⊆ Finset.range 10 ×ˢ Finset.range 10 := by
    intro c hc
    rw [List.mem_toFinset] at hc
    obtain ⟨ha, hb⟩ := hmem c hc
    rw [Finset.mem_product, Finset.mem_range, Finset.mem_range]
    exact ⟨ha, hb⟩
  calc coords.length = coords.toFinset.card := (List.toFinset_card_of_nodup hnd).symm
    _ ≤ (Finset.range 10 ×ˢ Finset.range 10).card := Finset.card_le_card h1
    _ = 100 := by simp [Finset.card_product]

/-- On `g10` the sampling loop can never reach its exit condition: every acceptable
coordinate lies in the 10x10 known box, accepted coordinates stay duplicate-free, so
`number_iter` (the count of accepted coordinates) never exceeds 100, while exiting
requires `number_iter > 100` — the 101st acceptance never happens. -/
theorem rpLoop_g10_stuck : ∀ (draws coords : List (ℕ × ℕ)),
    (∀ d ∈ draws, d.1 < 10 ∧ d.2 < 11) →
    coords.Nodup → (∀ c ∈ coords, c.1 < 10 ∧ c.2 < 10) →
    rpLoop g10 draws coords coords.length = none := by
  intro draws
  induction draws with
  | nil =>
    intro coords _ hnd hmem
    have hle : coords.length ≤ 100 := length_le_of_nodup_bounded coords hnd hmem
    simp [rpLoop, Nat.not_lt.2 hle]
  | cons d rest ih =>
    intro coords hdr hnd hmem
    have hle : coords.length ≤ 100 := length_le_of_nodup_bounded coords hnd hmem
    have hdrest : ∀ e ∈ rest, e.1 < 10 ∧ e.2 < 11 :=
      fun e he => hdr e (List.mem_cons_of_mem d he)
    rw [rpLoop, if_neg (by omega : ¬ 100 < coords.length)]
    by_cases hcl : (isCloseNeg100 (g10.val d.1 d.2) || npIscloseNan (g10.val d.1 d.2)) = true
    · rw [if_pos hcl]
      exact ih coords hdrest hnd hmem
    · rw [if_neg hcl]
      by_cases hmd : d ∈ coords
      · rw [if_pos hmd]
        exact ih coords hdrest hnd hmem
      · rw [if_neg hmd]
        obtain ⟨hd1, hd2⟩ := hdr d (List.mem_cons_self d rest)
        have hd2' : d.2 < 10 := by
          rcases Nat.lt_or_ge d.2 10 with hlt | hge
          · exact hlt
          · exfalso
            have he : d.2 = 10 := by omega
            apply hcl
            have : g10.val d.1 d.2 = .num (-100) := by
              simp [g10, he]
            rw [this]
            decide
        have hnd2 : (coords ++ [d]).Nodup := by
          rw [List.nodup_append]
          exact ⟨hnd, List.nodup_singleton d, by
            intro x hx hx2
            rw [List.mem_singleton] at hx2
            subst hx2
            exact hmd hx⟩
        have hmem2 : ∀ c ∈ coords ++ [d], c.1 < 10 ∧ c.2 < 10 := by
          intro c hc
          rcases List.mem_append.1 hc with hc | hc
          · exact hmem c hc
          · rw [List.mem_singleton] at hc
            subst hc
            exact ⟨hd1, hd2'⟩
        have := ih (coords ++ [d]) hdrest hnd2 hmem2
        simpa using this

/-- C10: "get_random_points terminates for every Target Matrix: whenever the known-pixel
count is at least 100 (including the boundary case of exactly 100 known non-gap pixels
in sentinel-gap mode), the rejection-sampling loop can always collect enough distinct
valid coordinates to exit."  REFUTED at that very boundary: on a 10x11 sentinel matrix
with exactly 100 known pixels the loop (`while number_iter <= 100`, incrementing only on
acceptance) needs 101 distinct acceptable coordinates to exit, but only 100 exist, so
for every possible stream of in-range draws it never exits — the call `get_random_points`
diverges. -/
theorem c10_sampling_loop_never_exits (draws : List (ℕ × ℕ))
    (h : ∀ d ∈ draws, d.1 < 10 ∧ d.2 < 11) :
    get_random_points .simulated g10 draws = none ∧
    temp_known_pixels .simulated g10 = 100 := by
  refine ⟨?_, by decide⟩
  have hknown : temp_known_pixels .simulated g10 = 100 := by decide
  unfold get_random_points
  rw [hknown, if_pos (le_refl 100)]
  have hs := rpLoop_g10_stuck draws [] h List.nodup_nil (by simp)
  simp only [List.length_nil] at hs
  rw [hs]
  rfl

/-- Witness for C10: the in-range-draws hypothesis holds for the one-draw stream
`[(0,0)]`, at which the loop indeed never exits. -/
theorem c10_sampling_loop_never_exits_witness :
    (∀ d ∈ ([(0, 0)] : List (ℕ × ℕ)), d.1 < 10 ∧ d.2 < 11) ∧
    (get_random_points .simulated g10 [(0, 0)] = none ∧
      temp_known_pixels .simulated g10 = 100) :=
  ⟨by decide, c10_sampling_loop_never_exits [(0, 0)] (by decide)⟩

/-- `getD` at an in-range index is a member of the list. -/
theorem getD_mem_of_lt {α : Type} : ∀ (l : List α) (i : ℕ) (d : α),
    i < l.length → l.getD i d ∈ l
  | a :: t, 0, _, _ => List.mem_cons_self a t
  | a :: t, i + 1, d, h =>
    List.mem_cons_of_mem a (getD_mem_of_lt t i d (by simpa using h))

/-- `getD` after `set` at the same in-range index reads the written value. -/
theorem getD_set_self {α : Type} : ∀ (l : List α) (i : ℕ) (a d : α),
    i < l.length → (l.set i a).getD i d = a
  | _ :: _, 0, _, _, _ => rfl
  | _ :: t, i + 1, a, d, h => getD_set_self t i a d (by simpa using h)

/-- `getD` after `set` at a different index is unchanged. -/
theorem getD_set_ne {α : Type} : ∀ (l : List α) (i j : ℕ) (a d : α),
    i ≠ j → (l.set i a).getD j d = l.getD j d
  | [], _, _, _, _, _ => rfl
  | _ :: _, 0, 0, _, _, h => absurd rfl h
  | _ :: _, 0, _ + 1, _, _, _ => rfl
  | _ :: _, _ + 1, 0, _, _, _ => rfl
  | _ :: t, i + 1, j + 1, a, d, h =>
    getD_set_ne t i j a d (fun e => h (by rw [e]))

/-- `getD` through a `map` at an in-range index. -/
theorem getD_map_of_lt {α β : Type} (f : α → β) : ∀ (l : List α) (i : ℕ) (d : β) (e : α),
    i < l.length → (l.map f).getD i d = f (l.getD i e)
  | _ :: _, 0, _, _, _ => rfl
  | _ :: t, i + 1, d, e, h => getD_map_of_lt f t i d e (by simpa using h)

/-- Membership is realisation by `getD` at some in-range index. -/
theorem mem_iff_exists_getD {α : Type} (d : α) :
    ∀ (l : List α) (x : α), x ∈ l ↔ ∃ j, j < l.length ∧ l.getD j d = x := by
  intro l
  induction l with
  | nil => intro x; simp
  | cons a t ih =>
    intro x
    rw [List.mem_cons, ih]
    constructor
    · rintro (h | ⟨j, hj, he⟩)
      · exact ⟨0, by simp, h.symm⟩
      · exact ⟨j + 1, by simpa using hj, he⟩
    · rintro ⟨j, hj, he⟩
      cases j with
      | zero => exact Or.inl he.symm
      | succ j => exact Or.inr ⟨j, by simpa using hj, he⟩

/-- On a duplicate-free list, `getD` is injective over in-range indices. -/
theorem nodup_getD_inj {α : Type} : ∀ (l : List α), l.Nodup → ∀ (i j : ℕ) (d : α),
    i < l.length → j < l.length → l.getD i d = l.getD j d → i = j := by
  intro l
  induction l with
  | nil => intro _ i j d hi; simp at hi
  | cons a t ih =>
    intro hnd i j d hi hj he
    have hna : a ∉ t := (List.nodup_cons.1 hnd).1
    cases i with
    | zero =>
      cases j with
      | zero => rfl
      | succ j =>
        exfalso
        apply hna
        have hm : t.getD j d ∈ t := getD_mem_of_lt t j d (by simpa using hj)
        have he2 : a = t.getD j d := he
        rw [he2]
        exact hm
    | succ i =>
      cases j with
      | zero =>
        exfalso
        apply hna
        have hm : t.getD i d ∈ t := getD_mem_of_lt t i d (by simpa using hi)
        have he2 : t.getD i d = a := he
        rw [← he2]
        exact hm
      | succ j =>
        have := ih (List.nodup_cons.1 hnd).2 i j d (by simpa using hi) (by simpa using hj) he
        rw [this]

/-- The running minimum bounds every member. -/
theorem listMin_le_of_mem : ∀ {l : List (WithTop ℤ)} {x : WithTop ℤ},
    x ∈ l → listMin l ≤ x := by
  intro l
  induction l with
  | nil => intro x h; simp at h
  | cons a t ih =>
    intro x h
    have he : listMin (a :: t) = min a (listMin t) := rfl
    rcases List.mem_cons.1 h with h | h
    · rw [he, h]; exact min_le_left _ _
    · rw [he]; exact le_trans (min_le_right _ _) (ih h)

/-- A lower bound of every member bounds the minimum. -/
theorem le_listMin {m : WithTop ℤ} : ∀ {l : List (WithTop ℤ)},
    (∀ x ∈ l, m ≤ x) → m ≤ listMin l := by
  intro l
  induction l with
  | nil => intro _; exact le_top
  | cons a t ih =>
    intro h
    exact le_min (h a (List.mem_cons_self a t)) (ih fun x hx => h x (List.mem_cons_of_mem a hx))

/-- `np.argmin` of a nonempty array is in range. -/
theorem argminIdx_lt_length : ∀ {l : List (WithTop ℤ)}, l ≠ [] → argminIdx l < l.length := by
  intro l
  induction l with
  | nil => intro h; exact absurd rfl h
  | cons a t ih =>
    intro _
    by_cases hc : a ≤ listMin t
    · simp [argminIdx, hc]
    · simp only [argminIdx, if_neg hc, List.length_cons]
      have ht : t ≠ [] := by
        intro e
        subst e
        exact hc le_top
      exact Nat.succ_lt_succ (ih ht)

/-- The entry at `np.argmin` is the minimum of the array. -/
theorem getD_argminIdx : ∀ {l : List (WithTop ℤ)}, l ≠ [] →
    l.getD (argminIdx l) ⊤ = listMin l := by
  intro l
  induction l with
  | nil => intro h; exact absurd rfl h
  | cons a t ih =>
    intro _
    have he : listMin (a :: t) = min a (listMin t) := rfl
    by_cases hc : a ≤ listMin t
    · simp only [argminIdx, if_pos hc]
      show a = listMin (a :: t)
      rw [he, min_eq_left hc]
    · simp only [argminIdx, if_neg hc]
      have ht : t ≠ [] := by
        intro e
        subst e
        exact hc le_top
      show t.getD (argminIdx t) ⊤ = listMin (a :: t)
      rw [ih ht, he, min_eq_right (le_of_not_le hc)]

/-- An array with a finite entry is nonempty. -/
theorem finiteCount_pos_ne_nil {l : List (WithTop ℤ)} (h : 0 < finiteCount l) :
    l ≠ [] := by
  intro e
  subst e
  simp [finiteCount] at h

/-- An array with positive finite count has a finite member. -/
theorem exists_finite_of_pos {l : List (WithTop ℤ)} (h : 0 < finiteCount l) :
    ∃ x ∈ l, x ≠ ⊤ := by
  obtain ⟨x, hx, hp⟩ := List.countP_pos_iff.mp h
  exact ⟨x, hx, of_decide_eq_true hp⟩

/-- The minimum of an array with a finite member is finite. -/
theorem listMin_ne_top {l : List (WithTop ℤ)} {x : WithTop ℤ} (hx : x ∈ l)
    (hxt : x ≠ ⊤) : listMin l ≠ ⊤ := by
  intro e
  have h := listMin_le_of_mem hx
  rw [e] at h
  exact hxt (top_le_iff.1 h)

/-- While finite entries remain, `np.argmin` lands on a finite entry. -/
theorem getD_argmin_ne_top {l : List (WithTop ℤ)} (h : 0 < finiteCount l) :
    l.getD (argminIdx l) ⊤ ≠ ⊤ := by
  obtain ⟨x, hx, hxt⟩ := exists_finite_of_pos h
  rw [getD_argminIdx (finiteCount_pos_ne_nil h)]
  exact listMin_ne_top hx hxt

/-- Overwriting a finite in-range entry with infinity drops the finite count by one. -/
theorem finiteCount_set : ∀ (l : List (WithTop ℤ)) (i : ℕ), i < l.length →
    l.getD i ⊤ ≠ ⊤ → finiteCount (l.set i ⊤) + 1 = finiteCount l := by
  intro l
  induction l with
  | nil => intro i h; simp at h
  | cons a t ih =>
    intro i hlen hfin
    cases i with
    | zero =>
      show finiteCount (⊤ :: t) + 1 = finiteCount (a :: t)
      have ha : a ≠ ⊤ := hfin
      simp [finiteCount, List.countP_cons, ha]
    | succ i =>
      show finiteCount (a :: t.set i ⊤) + 1 = finiteCount (a :: t)
      have hlen2 : i < t.length := by simpa using hlen
      have hfin2 : t.getD i ⊤ ≠ ⊤ := hfin
      have hrec := ih i hlen2 hfin2
      simp only [finiteCount, List.countP_cons] at hrec ⊢
      omega

/-- Overwriting an entry with infinity can only raise the minimum. -/
theorem listMin_le_set {l : List (WithTop ℤ)} {i : ℕ} :
    listMin l ≤ listMin (l.set i ⊤) :=
  le_listMin fun x hx => by
    rcases List.mem_or_eq_of_mem_set hx with h | h
    · exact listMin_le_of_mem h
    · rw [h]; exact le_top

/-- Full specification of the extraction loop on a distance array with at least `k`
finite entries: it picks `k` distinct in-range indices of finite entries, their values
are non-decreasing in extraction order, and each extracted value is no larger than the
value at any unextracted index. -/
theorem selectIdxs_spec : ∀ (k : ℕ) (dists : List (WithTop ℤ)), k ≤ finiteCount dists →
    (selectIdxs dists k).length = k ∧
    (∀ i ∈ selectIdxs dists k, i < dists.length ∧ dists.getD i ⊤ ≠ ⊤) ∧
    (selectIdxs dists k).Nodup ∧
    (selectIdxs dists k).Pairwise (fun i j => dists.getD i ⊤ ≤ dists.getD j ⊤) ∧
    (∀ i ∈ selectIdxs dists k, ∀ j, j < dists.length → j ∉ selectIdxs dists k →
      dists.getD i ⊤ ≤ dists.getD j ⊤) := by
  intro k
  induction k with
  | zero =>
    intro dists _
    refine ⟨rfl, ?_, ?_, ?_, ?_⟩ <;> simp [selectIdxs]
  | succ k ih =>
    intro dists hk
    have hpos : 0 < finiteCount dists := Nat.lt_of_lt_of_le (Nat.succ_pos k) hk
    have hne : dists ≠ [] := finiteCount_pos_ne_nil hpos
    have hlt : argminIdx dists < dists.length := argminIdx_lt_length hne
    have hfin : dists.getD (argminIdx dists) ⊤ ≠ ⊤ := getD_argmin_ne_top hpos
    have hminv : dists.getD (argminIdx dists) ⊤ = listMin dists := getD_argminIdx hne
    have hk2 : k ≤ finiteCount (dists.set (argminIdx dists) ⊤) := by
      have := finiteCount_set dists (argminIdx dists) hlt hfin
      omega
    obtain ⟨ihlen, ihmem, ihnd, ihpw, ihdom⟩ := ih (dists.set (argminIdx dists) ⊤) hk2
    have hsel : selectIdxs dists (k + 1) =
        argminIdx dists :: selectIdxs (dists.set (argminIdx dists) ⊤) k := rfl
    have htrans : ∀ i ∈ selectIdxs (dists.set (argminIdx dists) ⊤) k,
        i ≠ argminIdx dists ∧ i < dists.length ∧
        (dists.set (argminIdx dists) ⊤).getD i ⊤ = dists.getD i ⊤ := by
      intro i hi
      obtain ⟨hilt, hifin⟩ := ihmem i hi
      have hilen : i < dists.length := by simpa using hilt
      have hne0 : i ≠ argminIdx dists := by
        intro e
        apply hifin
        rw [e]
        exact getD_set_self dists (argminIdx dists) ⊤ ⊤ hlt
      exact ⟨hne0, hilen, getD_set_ne dists (argminIdx dists) i ⊤ ⊤ (fun e => hne0 e.symm)⟩
    rw [hsel]
    refine ⟨by simp [ihlen], ?_, ?_, ?_, ?_⟩
    · intro i hi
      rcases List.mem_cons.1 hi with h | h
      · rw [h]; exact ⟨hlt, hfin⟩
      · obtain ⟨_, hilen, htr⟩ := htrans i h
        refine ⟨hilen, ?_⟩
        rw [← htr]
        exact (ihmem i h).2
    · rw [List.nodup_cons]
      refine ⟨?_, ihnd⟩
      intro hmem0
      exact (htrans _ hmem0).1 rfl
    · rw [List.pairwise_cons]
      refine ⟨?_, ?_⟩
      · intro j hj
        obtain ⟨_, hjlen, _⟩ := htrans j hj
        rw [hminv]
        exact listMin_le_of_mem (getD_mem_of_lt dists j ⊤ hjlen)
      · refine List.Pairwise.imp_of_mem ?_ ihpw
        intro a b ha hb hab
        obtain ⟨_, _, hta⟩ := htrans a ha
        obtain ⟨_, _, htb⟩ := htrans b hb
        rw [hta, htb] at hab
        exact hab
    · intro i hi j hjlen hjn
      have hjn0 : j ≠ argminIdx dists := by
        intro e
        exact hjn (e ▸ List.mem_cons_self _ _)
      have hjtl : j ∉ selectIdxs (dists.set (argminIdx dists) ⊤) k :=
        fun hjt => hjn (List.mem_cons_of_mem _ hjt)
      rcases List.mem_cons.1 hi with h | h
      · rw [h, hminv]
        exact listMin_le_of_mem (getD_mem_of_lt dists j ⊤ hjlen)
      · obtain ⟨_, _, hti⟩ := htrans i h
        have hdom := ihdom i h j (by simpa using hjlen) hjtl
        rw [hti, getD_set_ne dists (argminIdx dists) j ⊤ ⊤ (fun e => hjn0 e.symm)] at hdom
        exact hdom

/-- C7: "When at least 40 same-class candidates exist, get_extra_matrix_points returns at
most 41 coordinates: the 40 candidates nearest to the gap pixel by Euclidean distance,
listed in non-decreasing distance order (selection by repeated minimum extraction
without replacement, ties broken by array order), with the gap pixel's own coordinate
always appended last."  CONFIRMED: with at least 40 candidates the selector returns the
extraction-loop output plus the gap pixel — exactly 41 coordinates, the gap pixel last;
the extracted coordinates are distinct candidates, pairwise non-decreasing in (squared,
hence Euclidean) distance to the gap pixel, and each is at least as near as every
candidate left unselected. -/
theorem c7_lcc_selection (mode : GapMode) (g : Grid) (extra : ℕ → ℕ → Val)
    (draws : List (ℕ × ℕ)) (gi : ℕ × ℕ)
    (h40 : 40 ≤ (lccCands mode g extra gi).length) :
    get_extra_matrix_points mode g extra draws gi =
      .coordsList (lccNearest gi (lccCands mode g extra gi) ++ [gi]) ∧
    (lccNearest gi (lccCands mode g extra gi) ++ [gi]).length = 41 ∧
    (lccNearest gi (lccCands mode g extra gi) ++ [gi]).getLast? = some gi ∧
    (lccNearest gi (lccCands mode g extra gi)).Pairwise
      (fun a b => sqDistZ gi a ≤ sqDistZ gi b) ∧
    (lccNearest gi (lccCands mode g extra gi)).Nodup ∧
    (∀ c ∈ lccNearest gi (lccCands mode g extra gi),
      c ∈ lccCands mode g extra gi) ∧
    (∀ c ∈ lccNearest gi (lccCands mode g extra gi),
      ∀ e ∈ lccCands mode g extra gi, e ∉ lccNearest gi (lccCands mode g extra gi) →
        sqDistZ gi c ≤ sqDistZ gi e) := by
  have hnodupL : (lccCands mode g extra gi).Nodup := (nodup_allCoords g).filter _
  have hDlen : ((lccCands mode g extra gi).map
      (fun c => ((sqDistZ gi c : ℤ) : WithTop ℤ))).length =
      (lccCands mode g extra gi).length := List.length_map _ _
  have hDfin : ∀ x ∈ (lccCands mode g extra gi).map
      (fun c => ((sqDistZ gi c : ℤ) : WithTop ℤ)), x ≠ ⊤ := by
    intro x hx
    obtain ⟨c, _, hc⟩ := List.mem_map.1 hx
    rw [← hc]
    exact WithTop.coe_ne_top
  have hDfc : finiteCount ((lccCands mode g extra gi).map
      (fun c => ((sqDistZ gi c : ℤ) : WithTop ℤ))) =
      ((lccCands mode g extra gi).map
        (fun c => ((sqDistZ gi c : ℤ) : WithTop ℤ))).length := by
    unfold finiteCount
    rw [List.countP_eq_length]
    intro a ha
    exact decide_eq_true (hDfin a ha)
  have h40d : 40 ≤ finiteCount ((lccCands mode g extra gi).map
      (fun c => ((sqDistZ gi c : ℤ) : WithTop ℤ))) := by
    rw [hDfc, hDlen]
    exact h40
  obtain ⟨slen, smem, snd, spw, sdom⟩ := selectIdxs_spec 40
    ((lccCands mode g extra gi).map (fun c => ((sqDistZ gi c : ℤ) : WithTop ℤ))) h40d
  have hmin40 : min 40 (lccCands mode g extra gi).length = 40 := min_eq_left h40
  have hLN : lccNearest gi (lccCands mode g extra gi) =
      (selectIdxs ((lccCands mode g extra gi).map
        (fun c => ((sqDistZ gi c : ℤ) : WithTop ℤ))) 40).map
        (fun i => (lccCands mode g extra gi).getD i (0, 0)) := by
    unfold lccNearest
    rw [hmin40]
  have hgetD : ∀ i, i < (lccCands mode g extra gi).length →
      ((lccCands mode g extra gi).map
        (fun c => ((sqDistZ gi c : ℤ) : WithTop ℤ))).getD i ⊤ =
      ((sqDistZ gi ((lccCands mode g extra gi).getD i (0, 0)) : ℤ) : WithTop ℤ) := by
    intro i hi
    exact getD_map_of_lt _ _ i ⊤ (0, 0) hi
  have hmemlen : ∀ i ∈ selectIdxs ((lccCands mode g extra gi).map
      (fun c => ((sqDistZ gi c : ℤ) : WithTop ℤ))) 40,
      i < (lccCands mode g extra gi).length := by
    intro i hi
    have := (smem i hi).1
    rwa [hDlen] at this
  refine ⟨?_, ?_, ?_, ?_, ?_, ?_, ?_⟩
  · unfold get_extra_matrix_points
    rw [if_neg (not_lt.2 h40)]
  · rw [hLN]
    simp [slen]
  · exact List.getLast?_concat _
  · rw [hLN, List.pairwise_map]
    refine List.Pairwise.imp_of_mem ?_ spw
    intro a b ha hb hab
    rw [hgetD a (hmemlen a ha), hgetD b (hmemlen b hb)] at hab
    exact_mod_cast hab
  · rw [hLN]
    refine List.Nodup.map_on ?_ snd
    intro x hx y hy he
    exact nodup_getD_inj _ hnodupL x y (0, 0) (hmemlen x hx) (hmemlen y hy) he
  · rw [hLN]
    intro c hc
    obtain ⟨i, hi, he⟩ := List.mem_map.1 hc
    rw [← he]
    exact getD_mem_of_lt _ i (0, 0) (hmemlen i hi)
  · intro c hc e he hen
    rw [hLN] at hc hen
    obtain ⟨i, hi, hie⟩ := List.mem_map.1 hc
    obtain ⟨j, hj, hje⟩ := (mem_iff_exists_getD (0, 0) _ e).1 he
    have hjn : j ∉ selectIdxs ((lccCands mode g extra gi).map
        (fun c => ((sqDistZ gi c : ℤ) : WithTop ℤ))) 40 := by
      intro hjmem
      apply hen
      rw [← hje]
      exact List.mem_map_of_mem _ hjmem
    have hdom := sdom i hi j (by rwa [hDlen]) hjn
    rw [hgetD i (hmemlen i hi), hgetD j hj] at hdom
    rw [← hie, ← hje]
    exact_mod_cast hdom

/-- Witness for C7: on a 7x7 single-class matrix there are 49 ≥ 40 same-class
candidates, and the selector then returns 41 coordinates. -/
theorem c7_lcc_selection_witness :
    40 ≤ (lccCands .simulated g7 extra7 (3, 3)).length ∧
    (lccNearest (3, 3) (lccCands .simulated g7 extra7 (3, 3)) ++ [(3, 3)]).length = 41 :=
  ⟨by decide, (c7_lcc_selection .simulated g7 extra7 [] (3, 3) (by decide)).2.1⟩

/-- The numerator/denominator form of `isCloseNeg100` coincides with the direct
transliteration of NumPy's `|v - (-100)| <= atol + rtol * |(-100)|` with `atol = 1e-8`,
`rtol = 1e-5`. -/
theorem isCloseNeg100_characterization (q : ℚ) :
    isCloseNeg100 (.num q) = decide (|q + 100| ≤ 1 / 100000000 + (1 / 100000) * 100) := by
  simp only [isCloseNeg100, decide_eq_decide]
  have hden : (0 : ℚ) < (q.den : ℚ) := by
    exact_mod_cast q.den_pos
  have hnum : (q.num : ℚ) = q * (q.den : ℚ) := by
    have hne : ((q.den : ℚ)) ≠ 0 := ne_of_gt hden
    calc (q.num : ℚ) = ((q.num : ℚ) / q.den) * q.den := by field_simp
      _ = q * q.den := by rw [Rat.num_div_den q]
  rw [show (1 / 100000000 + (1 / 100000) * 100 : ℚ) = 100001 / 100000000 by norm_num]
  qify
  rw [hnum, show q * (q.den : ℚ) + 100 * (q.den : ℚ) = (q + 100) * q.den by ring,
    abs_mul, abs_of_pos hden, ← mul_assoc, mul_le_mul_right hden]
  constructor
  · intro h
    linarith
  · intro h
    linarith

